import Mathlib

/-!
Verification of the yara-x condition pipeline against its specification.

The definitions below are a shallow embedding of the Rust sources:

* `src/yara-x/src/wasm/mod.rs` — memory-layout constants, the host ABI
  primitives `rule_match`, the `uint*` data readers generated by the
  `gen_uint_fn!` macro, and the shared field-lookup path implemented by the
  `lookup_common!` macro together with the scalar lookup functions generated
  by `gen_lookup_fn!`.
* `src/yara-x/src/compiler/mod.rs` — the compiler state
  (`Compiler`/`Context`), rule and import processing (`process_rule`,
  `process_imports`), variable-slot allocation (`Context::new_var`,
  `Context::free_vars`) and artifact assembly (`Compiler::build`).
* `src/lib/src/modules/magic/mod.rs` — the magic module's `type` and
  `mime_type` exported functions and their thread-local caches.

Machine integers are modelled as `Nat`/`Int`; wrapping conversions such as
Rust's `as i64` are explicit (`toI64`).  Fallible operations return `Option`
or `Except`, and panics are explicit constructors of a result type.
-/

namespace YaraX

/-! ### Memory layout constants (`src/yara-x/src/wasm/mod.rs`)

The Rust constants are `i32`; we use `Int`, keeping the defining expressions
of the source (`VARS_STACK_END = VARS_STACK_START + 1024`, …). -/

/-- Constant `VARS_STACK_START`: offset where the space for loop variables starts. -/
def VARS_STACK_START : Int := 0

/-- Constant `VARS_STACK_END`: offset where the space for loop variables ends. -/
def VARS_STACK_END : Int := VARS_STACK_START + 1024

/-- Constant `LOOKUP_INDEXES_START`: offset where the space for lookup indexes starts. -/
def LOOKUP_INDEXES_START : Int := VARS_STACK_END

/-- Constant `LOOKUP_INDEXES_END`: offset where the space for lookup indexes ends. -/
def LOOKUP_INDEXES_END : Int := LOOKUP_INDEXES_START + 1024

/-- Constant `MATCHING_RULES_BITMAP_BASE`: offset of the matching-rules bitmap. -/
def MATCHING_RULES_BITMAP_BASE : Int := LOOKUP_INDEXES_END

/-! ### The `uint*` data readers (`gen_uint_fn!` in `src/yara-x/src/wasm/mod.rs`)

Scanned data is a byte buffer, modelled as `List Nat` whose members are
below 256.  `MaybeUndef<i64>` is modelled as `Option Int`: `none` is the
undefined pair `(0, 1)` and `some v` the defined pair `(v, 0)`. -/

/-- Little-endian decoding of a byte list, as `uN::from_le_bytes` does:
the first byte is the least significant. -/
def leDecode (bs : List Nat) : Nat :=
  bs.foldr (fun b acc => acc * 256 + b) 0

/-- Big-endian decoding of a byte list, as `uN::from_be_bytes` does:
the first byte is the most significant. -/
def beDecode (bs : List Nat) : Nat :=
  bs.foldl (fun acc b => acc * 256 + b) 0

/-- Rust's `value as i64` applied to an unsigned integer: keep the low 64 bits
and interpret them in two's complement. -/
def toI64 (n : Nat) : Int :=
  if n % 2 ^ 64 < 2 ^ 63 then ((n % 2 ^ 64 : Nat) : Int)
  else ((n % 2 ^ 64 : Nat) : Int) - 2 ^ 64

/-- Rust's `slice.get(start..start+len)`: `some` of the sub-slice when the
range is within bounds, `none` otherwise. -/
def sliceGet (d : List Nat) (start len : Nat) : Option (List Nat) :=
  if start + len ≤ d.length then some ((d.drop start).take len) else none

/-- Body of the functions generated by the `gen_uint_fn!` macro:
`usize::try_from(offset)` succeeds exactly when the `i64` offset is
non-negative; then `scanned_data().get(offset..offset+size)` is decoded and
the decoded unsigned value is returned `as i64`. -/
def gen_uint_fn (size : Nat) (decode : List Nat → Nat)
    (d : List Nat) (offset : Int) : Option Int :=
  if 0 ≤ offset then
    match sliceGet d offset.toNat size with
    | some bytes => some (toI64 (decode bytes))
    | none => none
  else
    none

/-- Function `uint8(offset)`: one byte, little-endian. -/
def uint8 (d : List Nat) (offset : Int) : Option Int :=
  gen_uint_fn 1 leDecode d offset

/-- Function `uint16(offset)`: two bytes, little-endian. -/
def uint16 (d : List Nat) (offset : Int) : Option Int :=
  gen_uint_fn 2 leDecode d offset

/-- Function `uint32(offset)`: four bytes, little-endian. -/
def uint32 (d : List Nat) (offset : Int) : Option Int :=
  gen_uint_fn 4 leDecode d offset

/-- Function `uint64(offset)`: eight bytes, little-endian. -/
def uint64 (d : List Nat) (offset : Int) : Option Int :=
  gen_uint_fn 8 leDecode d offset

/-- Function `uint8be(offset)`: one byte, big-endian. -/
def uint8be (d : List Nat) (offset : Int) : Option Int :=
  gen_uint_fn 1 beDecode d offset

/-- Function `uint16be(offset)`: two bytes, big-endian. -/
def uint16be (d : List Nat) (offset : Int) : Option Int :=
  gen_uint_fn 2 beDecode d offset

/-- Function `uint32be(offset)`: four bytes, big-endian. -/
def uint32be (d : List Nat) (offset : Int) : Option Int :=
  gen_uint_fn 4 beDecode d offset

/-- Function `uint64be(offset)`: eight bytes, big-endian. -/
def uint64be (d : List Nat) (offset : Int) : Option Int :=
  gen_uint_fn 8 beDecode d offset

/-! #### Helper lemmas about decoding and `toI64` -/

lemma leDecode_lt (bs : List Nat) (hb : ∀ b ∈ bs, b < 256) :
    leDecode bs < 256 ^ bs.length := by
  induction bs with
  | nil => simp [leDecode]
  | cons b bs ih =>
      have hb' : ∀ x ∈ bs, x < 256 := fun x hx => hb x (List.mem_cons_of_mem _ hx)
      have hbb : b < 256 := hb b (List.mem_cons_self _ _)
      have := ih hb'
      simp only [leDecode, List.foldr_cons, List.length_cons] at *
      calc (List.foldr (fun b acc => acc * 256 + b) 0 bs) * 256 + b
          ≤ (256 ^ bs.length - 1) * 256 + b := by
            have : List.foldr (fun b acc => acc * 256 + b) 0 bs ≤ 256 ^ bs.length - 1 :=
              Nat.le_sub_one_of_lt this
            nlinarith [this, hbb]
        _ < 256 ^ (bs.length + 1) := by
            have hpow : 1 ≤ 256 ^ bs.length := Nat.one_le_pow _ _ (by norm_num)
            have : (256 ^ bs.length - 1) * 256 + 256 = 256 ^ bs.length * 256 := by
              omega
            calc (256 ^ bs.length - 1) * 256 + b
                < (256 ^ bs.length - 1) * 256 + 256 := by omega
              _ = 256 ^ bs.length * 256 := this
              _ = 256 ^ (bs.length + 1) := by ring

lemma beDecode_lt (bs : List Nat) (hb : ∀ b ∈ bs, b < 256) :
    beDecode bs < 256 ^ bs.length := by
  rw [beDecode]
  suffices h : ∀ acc : Nat, acc < 256 ^ 0 →
      ∀ bs : List Nat, (∀ b ∈ bs, b < 256) →
      bs.foldl (fun acc b => acc * 256 + b) acc < 256 ^ bs.length * 1 by
    simpa using h 0 (by norm_num) bs hb
  intro acc hacc bs'
  -- generalize: from `acc < B` we get `foldl ... acc bs < B * 256 ^ |bs|`
  suffices h : ∀ bs' : List Nat, (∀ b ∈ bs', b < 256) → ∀ B acc : Nat, acc < B →
      bs'.foldl (fun acc b => acc * 256 + b) acc < B * 256 ^ bs'.length by
    intro hbs'
    have := h bs' hbs' 1 acc (by simpa using hacc)
    simpa [Nat.mul_comm] using this
  clear hacc acc bs'
  intro bs' hbs' B
  induction bs' generalizing B with
  | nil => intro acc h; simpa using h
  | cons b bs ih =>
      intro acc h
      have hb' : ∀ x ∈ bs, x < 256 := fun x hx => hbs' x (List.mem_cons_of_mem _ hx)
      have hbb : b < 256 := hbs' b (List.mem_cons_self _ _)
      simp only [List.foldl_cons, List.length_cons]
      have hstep : acc * 256 + b < B * 256 := by nlinarith
      have := ih (fun x hx => hb' x hx) (B := B * 256) (acc * 256 + b) hstep
      calc List.foldl (fun acc b => acc * 256 + b) (acc * 256 + b) bs
          < B * 256 * 256 ^ bs.length := this
        _ = B * 256 ^ (bs.length + 1) := by ring

lemma toI64_of_lt {n : Nat} (h : n < 2 ^ 63) : toI64 n = (n : Int) := by
  have h64 : n < 2 ^ 64 := lt_trans h (by norm_num)
  rw [toI64, Nat.mod_eq_of_lt h64, if_pos h]

lemma toI64_of_ge {n : Nat} (h1 : 2 ^ 63 ≤ n) (h2 : n < 2 ^ 64) :
    toI64 n = (n : Int) - 2 ^ 64 := by
  rw [toI64, Nat.mod_eq_of_lt h2, if_neg (by omega)]

lemma toI64_neg_of_ge {n : Nat} (h1 : 2 ^ 63 ≤ n) (h2 : n < 2 ^ 64) :
    toI64 n < 0 := by
  rw [toI64_of_ge h1 h2]
  have : (n : Int) < 2 ^ 64 := by exact_mod_cast h2
  omega

lemma toI64_emod (n : Nat) : toI64 n % 2 ^ 64 = (n : Int) % 2 ^ 64 := by
  rw [toI64]
  by_cases h : n % 2 ^ 64 < 2 ^ 63
  · rw [if_pos h]; omega
  · rw [if_neg h]; omega

/-! ### `rule_match` (`src/yara-x/src/wasm/mod.rs`)

The scan context's mutable data that `rule_match` touches: the module's main
memory (byte-addressed, modelled as a total map from addresses to byte
values) and the host-side `rules_matching` vector.  `rule_match` builds an
`Lsb0` bit-slice over `main_mem[MATCHING_RULES_BITMAP_BASE..]` and sets bit
`rule_id`: with `Lsb0` ordering, bit `i` of the slice is bit `i % 8` of byte
`i / 8`, and setting it ORs `1 <<< (i % 8)` into that byte. -/

structure ScanMem where
  main_memory : Nat → Nat
  rules_matching : List Nat

/-- Host function `rule_match(rule_id)`: set bit `rule_id` of the matching-rules bitmap and
push `rule_id` onto the host's `rules_matching` vector. -/
def rule_match (ctx : ScanMem) (rule_id : Nat) : ScanMem :=
  { main_memory := fun addr =>
      if addr = MATCHING_RULES_BITMAP_BASE.toNat + rule_id / 8 then
        ctx.main_memory addr ||| (1 <<< (rule_id % 8))
      else
        ctx.main_memory addr,
    rules_matching := ctx.rules_matching ++ [rule_id] }

/-- Bit `i` of the matching-rules bitmap (`Lsb0` over the bytes starting at
`MATCHING_RULES_BITMAP_BASE`). -/
def matchingBit (ctx : ScanMem) (i : Nat) : Bool :=
  (ctx.main_memory (MATCHING_RULES_BITMAP_BASE.toNat + i / 8)).testBit (i % 8)

/-! ### Variable-slot allocation (`Context` in `src/yara-x/src/compiler/mod.rs`) -/

/-- The closed set of value types.  The Rust `Type` enum lives in the
`yara_x_parser` crate; the variants are the spec's closed variant set.  Only
the tag travels with a `Var`, so nothing else depends on this type. -/
inductive VarType where
  | unknown | bool | integer | float | string | struct | array | map | func
deriving DecidableEq

/-- Handle type `Var`: a local variable handle returned by `Context::new_var`. -/
structure Var where
  ty : VarType
  index : Int
deriving DecidableEq

/-- The part of the compiler's `Context` that variable allocation touches:
`vars_stack_top` (an `i32`, starting at 0). -/
structure VarCtx where
  vars_stack_top : Int
deriving DecidableEq

/-- Method `Context::new_var`: remember the current top, bump it, panic with
"too many nested loops" when the byte size of the stack
(`vars_stack_top * size_of::<i64>()`) exceeds
`VARS_STACK_END - VARS_STACK_START`; otherwise return the handle for the
remembered slot.  The panic is modelled as `Except.error`. -/
def new_var (ctx : VarCtx) (ty : VarType) : Except String (Var × VarCtx) :=
  let top := ctx.vars_stack_top
  let ctx' : VarCtx := ⟨ctx.vars_stack_top + 1⟩
  if ctx'.vars_stack_top * 8 > VARS_STACK_END - VARS_STACK_START then
    .error "too many nested loops"
  else
    .ok (⟨ty, top⟩, ctx')

/-- Method `Context::free_vars`: restore the top of the stack to the index of the
given handle, releasing all slots allocated after it. -/
def free_vars (_ctx : VarCtx) (top : Var) : VarCtx :=
  ⟨top.index⟩

/-- Iterated allocation: `n` successive `new_var` calls starting from a fresh context
(`vars_stack_top = 0`), as produced by `n` nested loops. -/
def allocN (ty : VarType) : Nat → Except String VarCtx
  | 0 => .ok ⟨0⟩
  | n + 1 =>
      match allocN ty n with
      | .error e => .error e
      | .ok ctx =>
          match new_var ctx ty with
          | .error e => .error e
          | .ok (_, ctx') => .ok ctx'

lemma allocN_le (ty : VarType) (n : Nat) (h : n ≤ 128) :
    allocN ty n = .ok ⟨(n : Int)⟩ := by
  induction n with
  | zero => simp [allocN]
  | succ n ih =>
      have hn : n ≤ 128 := Nat.le_of_succ_le h
      rw [allocN, ih hn]
      have hcond : ¬ (((n : Int) + 1) * 8 > VARS_STACK_END - VARS_STACK_START) := by
        simp only [VARS_STACK_END, VARS_STACK_START]
        have : (n : Int) + 1 ≤ 128 := by exact_mod_cast h
        omega
      simp [new_var, hcond]

/-! ### Compiler state, `process_rule` and `process_imports`
(`src/yara-x/src/compiler/mod.rs`)

`IdentId` values are indices into the identifier pool; `RuleId` and
`PatternId` are indices into the `rules` and `patterns` vectors (`i32` in
the source, always the non-negative current length, so modelled as `Nat`).
The AST, semantic checking and code emission live in other crates/files; of
`process_rule` we embed its effect on the compiler state, abstracting the
outcome of `semcheck!` as a boolean on the declaration. -/

/-- Modelled from the spec: the interning `StringPool` (the `string_pool`
module is not among the provided sources).  "Interning map assigning each
distinct identifier string a dense 32-bit ID.  Deduplicating: two equal
strings yield the same ID."  The pool is the list of interned strings, an
ID its index. -/
def get_or_intern (pool : List String) (s : String) : Nat × List String :=
  match pool.indexOf? s with
  | some i => (i, pool)
  | none => (pool.length, pool ++ [s])

/-- Rust `struct Pattern {}`: patterns are opaque in the compiled form. -/
structure CPattern where
deriving DecidableEq

/-- Rust `struct Rule`: the `IdentId` of the rule's identifier and the
`(IdentId, PatternId)` pairs of its patterns. -/
structure CRule where
  ident : Nat
  patterns : List (Nat × Nat)
deriving DecidableEq

/-- Warnings (the `Warning` enum lives in the `yara_x_parser` crate; the
spec lists `DuplicateImport` among the warning kinds). -/
inductive Warning where
  | duplicateImport (module_name : String)
  | nonBooleanCondition
  | unusedString (name : String)
deriving DecidableEq

/-- Symbol kinds inserted by `process_rule` / `process_imports`. -/
inductive SymKind where
  | rule (rule_id : Nat)
  | fieldIndex (index : Int)
deriving DecidableEq

/-- Modelled from the spec: a namespace `SymbolTable` ("Name→Symbol";
insertion replaces any previous binding of the name, as a hash-map insert
does; the `symbols` module is not among the provided sources). -/
def sym_insert (t : List (String × SymKind)) (name : String) (k : SymKind) :
    List (String × SymKind) :=
  t.filter (fun p => p.1 ≠ name) ++ [(name, k)]

/-- The fields of `Compiler` that `process_rule`/`process_imports`/`build`
read or write (report builder, WASM module builder and the stacked symbol
table below the namespace tables are omitted: no claim concerns them).
`modules_struct` is kept as its ordered list of field names. -/
structure CompilerState where
  ident_pool : List String
  rules : List CRule
  patterns : List CPattern
  imported_modules : List Nat
  modules_struct : List String
  warnings : List Warning
deriving DecidableEq

/-- Method `Compiler::new()`: every pool and vector starts empty. -/
def compiler_new : CompilerState :=
  { ident_pool := [], rules := [], patterns := [], imported_modules := [],
    modules_struct := [], warnings := [] }

/-- A rule declaration as `process_rule` consumes it: the identifier, the
optional pattern declarations (their identifiers, in source order) and the
outcome of `semcheck!` on its condition (abstracted: the condition itself is
checked by the `semcheck` module, which is not among the provided sources). -/
structure RuleDecl where
  identifier : String
  patternDecls : Option (List String)
  cond_ok : Bool
deriving DecidableEq

/-- Number of pattern declarations of a rule. -/
def RuleDecl.patternCount (r : RuleDecl) : Nat :=
  match r.patternDecls with
  | some ps => ps.length
  | none => 0

/-- The `for pattern in patterns` loop of `process_rule`: intern the pattern
identifier, take `patterns.len()` as the `PatternId`, push an (opaque)
pattern, and record the `(IdentId, PatternId)` pair. -/
def intern_patterns : List String → List String → List CPattern →
    List (Nat × Nat) × List String × List CPattern
  | [], pool, pats => ([], pool, pats)
  | p :: ps, pool, pats =>
      let r := get_or_intern pool p
      let rest := intern_patterns ps r.2 (pats ++ [⟨⟩])
      ((r.1, pats.length) :: rest.1, rest.2.1, rest.2.2)

/-- Method `Compiler::process_rule`: build the pattern pairs, take `rules.len()` as
the `RuleId`, push the compiled rule, bind the rule's identifier to a
`Rule(rule_id)` symbol in the namespace table, then run the semantic check
on the condition (abstracted by `rule.cond_ok`; on failure the error aborts
compilation).  Returns the assigned `RuleId` together with the outcome. -/
def process_rule (st : CompilerState) (syms : List (String × SymKind))
    (rule : RuleDecl) :
    Nat × Except Unit (CompilerState × List (String × SymKind)) :=
  let pr :=
    match rule.patternDecls with
    | some ps => intern_patterns ps st.ident_pool st.patterns
    | none => ([], st.ident_pool, st.patterns)
  let rule_id := st.rules.length
  let r := get_or_intern pr.2.1 rule.identifier
  let st' : CompilerState :=
    { st with
      ident_pool := r.2
      rules := st.rules ++ [{ ident := r.1, patterns := pr.1 }]
      patterns := pr.2.2 }
  let syms' := sym_insert syms rule.identifier (.rule rule_id)
  (rule_id, if rule.cond_ok then .ok (st', syms') else .error ())

/-- Method `Compiler::process_imports`: for each import, fail with `UnknownModule`
if the module is not a built-in; otherwise intern its name, push the
`IdentId` onto `imported_modules`, add a field for the module to
`modules_struct` and bind the module name in the namespace symbol table to
a `FieldIndex` symbol for that field (`field_by_name` returns the first
field with the name).  There is no duplicate-import check. -/
def process_imports (known : String → Bool) (st : CompilerState)
    (syms : List (String × SymKind)) :
    List String → Except Unit (CompilerState × List (String × SymKind))
  | [] => .ok (st, syms)
  | name :: rest =>
      if known name then
        let r := get_or_intern st.ident_pool name
        let modules_struct' := st.modules_struct ++ [name]
        let st' : CompilerState :=
          { st with
            ident_pool := r.2
            imported_modules := st.imported_modules ++ [r.1]
            modules_struct := modules_struct' }
        let idx : Int :=
          match modules_struct'.indexOf? name with
          | some i => (i : Int)
          | none => 0
        let syms' := sym_insert syms name (.fieldIndex idx)
        process_imports known st' syms' rest
      else
        .error ()

/-- The `for rule in ns.rules` loop of `Compiler::add_source`: process the
rules in source order, collecting the assigned `RuleId`s, aborting on the
first error. -/
def process_rules (st : CompilerState) (syms : List (String × SymKind)) :
    List RuleDecl → Except Unit (List Nat × CompilerState)
  | [] => .ok ([], st)
  | r :: rs =>
      let pr := process_rule st syms r
      match pr.2 with
      | .error e => .error e
      | .ok (st', syms') =>
          match process_rules st' syms' rs with
          | .error e => .error e
          | .ok (ids, st'') => .ok (pr.1 :: ids, st'')

/-- A namespace declaration: its imports and rules. -/
structure NamespaceDecl where
  imports : List String
  rules : List RuleDecl
deriving DecidableEq

/-- One namespace of `Compiler::add_source`: push a fresh namespace symbol
table, process the imports, process the rules in source order, pop the
namespace table (the table does not escape). -/
def process_namespace (known : String → Bool) (st : CompilerState)
    (ns : NamespaceDecl) : Except Unit (List Nat × CompilerState) :=
  match process_imports known st [] ns.imports with
  | .error e => .error e
  | .ok (st2, syms2) => process_rules st2 syms2 ns.rules

/-- Method `Compiler::add_source` over the namespaces of one source (starting from
`Compiler::new`), returning all assigned `RuleId`s in processing order. -/
def add_source_loop (known : String → Bool) :
    CompilerState → List NamespaceDecl → Except Unit (List Nat × CompilerState)
  | st, [] => .ok ([], st)
  | st, ns :: rest =>
      match process_namespace known st ns with
      | .error e => .error e
      | .ok (ids, st') =>
          match add_source_loop known st' rest with
          | .error e => .error e
          | .ok (ids', st'') => .ok (ids ++ ids', st'')

/-- Running `add_source` on a fresh compiler. -/
def add_source (known : String → Bool) (nss : List NamespaceDecl) :
    Except Unit (List Nat × CompilerState) :=
  add_source_loop known compiler_new nss

/-- The compiled `Rules` artifact (`Compiler::build` moves the pools and
vectors into it; the WASM module is omitted). `Rules::rules()` and
`Rules::patterns()` return the corresponding vectors as slices. -/
structure RulesArtifact where
  ident_pool : List String
  imported_modules : List Nat
  rules : List CRule
  patterns : List CPattern
deriving DecidableEq

/-- Method `Compiler::build`. -/
def build (st : CompilerState) : RulesArtifact :=
  { ident_pool := st.ident_pool
    imported_modules := st.imported_modules
    rules := st.rules
    patterns := st.patterns }

/-- Number of rule declarations in a source. -/
def rule_count (nss : List NamespaceDecl) : Nat :=
  (nss.map (fun ns => ns.rules.length)).sum

/-- All `PatternId`s stored in the compiled rules, in rule order. -/
def pattern_ids (st : CompilerState) : List Nat :=
  (st.rules.map (fun r => r.patterns.map Prod.snd)).flatten

/-! ### The shared field-lookup path (`lookup_common!` and `gen_lookup_fn!`
in `src/yara-x/src/wasm/mod.rs`)

`TypeValue` lives in the `yara_x_parser` crate; the variants are the ones
the lookup code pattern-matches on.  A struct is its ordered field list
(`field_by_index` is positional access); array/map/function payloads are
never inspected by the scalar lookup functions, so they carry no data here.
`f64` values are carried as their 64-bit pattern, never computed with. -/

/-- An `f64` carried as its bit pattern. -/
structure F64 where
  bits : Nat
deriving DecidableEq

/-- Enum `TypeValue` (scalar variants carry an optional materialized value). -/
inductive TypeValue where
  | unknown
  | boolV (v : Option Bool)
  | intV (v : Option Int)
  | floatV (v : Option F64)
  | strV (v : Option String)
  | structV (fields : List TypeValue)
  | arr
  | mp
  | fnc

/-- Rust's `i32 as usize` (sign-extend, then reinterpret as a 64-bit
unsigned index). -/
def usizeOf (i : Int) : Nat :=
  (i % 2 ^ 64).toNat

/-- Outcome of a host lookup primitive.  `undef` is the `MaybeUndef::Undef`
return; `unreachableHit` is the bare `unreachable!()` else-branch of
`lookup_common!`; `otherPanic` covers the remaining panic sites (a failed
`field_by_index(..).unwrap()`, the `unreachable!("expecting struct…")` for a
non-struct variable, an out-of-bounds `vars_stack` index, and the
`unreachable!()` for a type mismatch in `lookup_string`). -/
inductive LookupResult (α : Type) where
  | ok (v : α)
  | undef
  | unreachableHit
  | otherPanic
deriving DecidableEq

/-- The scan-context state read by `lookup_common!`: the `lookup_start` and
`lookup_stack_top` globals (the latter via the index slice it delimits at
`LOOKUP_INDEXES_START`, modelled as the list `lookup_stack`), the optional
`current_struct`, the host-side `vars_stack` and the `root_struct`. -/
structure LookupState where
  lookup_start : Int
  lookup_stack : List Int
  current_struct : Option (List TypeValue)
  vars_stack : List TypeValue
  root_struct : List TypeValue

/-- The `for field_index in lookup_stack` walk: look the index up in the
current structure (panic — `none` — when absent), remember the field as the
final one, and descend when the field is itself a struct. -/
def walk_fields : List TypeValue → List Int → Option TypeValue → Option TypeValue
  | _, [], final => final
  | flds, i :: rest, _ =>
      match flds.get? (usizeOf i) with
      | none => none
      | some f =>
          match f with
          | .structV s => walk_fields s rest (some f)
          | _ => walk_fields flds rest (some f)

/-- The choice of the starting structure inside `lookup_common!` when the
index slice is non-empty: the current struct if set, else the struct in the
variable slot `lookup_start` if that is not `-1` (a non-struct or missing
variable panics), else the root struct. -/
def lookup_start_struct (st : LookupState) : LookupResult (List TypeValue) :=
  match st.current_struct with
  | some s => .ok s
  | none =>
      if st.lookup_start ≠ -1 then
        match st.vars_stack.get? (usizeOf st.lookup_start) with
        | some (.structV s) => .ok s
        | some _ => .otherPanic
        | none => .otherPanic
      else
        .ok st.root_struct

/-- Macro `lookup_common!`: when the index slice is non-empty, pick the starting
structure and walk the indexes; when it is empty, return the variable at
`lookup_start` if that is not `-1`; otherwise the bare `unreachable!()` is
reached.  (The write clearing `current_struct` after the lookup has no
bearing on any claim and is not modelled.) -/
def lookup_common (st : LookupState) : LookupResult TypeValue :=
  if st.lookup_stack.length > 0 then
    match lookup_start_struct st with
    | .ok s =>
        match walk_fields s st.lookup_stack none with
        | some f => .ok f
        | none => .otherPanic
    | .undef => .undef
    | .unreachableHit => .unreachableHit
    | .otherPanic => .otherPanic
  else if st.lookup_start ≠ -1 then
    match st.vars_stack.get? (usizeOf st.lookup_start) with
    | some v => .ok v
    | none => .otherPanic
  else
    .unreachableHit

/-- The `$code` block of a scalar lookup function, run on the `TypeValue`
that `lookup_common!` produced (panics propagate). -/
def lift_scalar {α : Type} (code : TypeValue → LookupResult α) :
    LookupResult TypeValue → LookupResult α
  | .ok v => code v
  | .undef => .undef
  | .unreachableHit => .unreachableHit
  | .otherPanic => .otherPanic

/-- Function `lookup_integer` (from `gen_lookup_fn!`): an integer field with a value,
else undefined. -/
def lookup_integer (st : LookupState) : LookupResult Int :=
  lift_scalar
    (fun tv => match tv with
      | .intV (some v) => .ok v
      | _ => .undef)
    (lookup_common st)

/-- Function `lookup_float` (from `gen_lookup_fn!`). -/
def lookup_float (st : LookupState) : LookupResult F64 :=
  lift_scalar
    (fun tv => match tv with
      | .floatV (some v) => .ok v
      | _ => .undef)
    (lookup_common st)

/-- Function `lookup_bool` (from `gen_lookup_fn!`). -/
def lookup_bool (st : LookupState) : LookupResult Bool :=
  lift_scalar
    (fun tv => match tv with
      | .boolV (some v) => .ok v
      | _ => .undef)
    (lookup_common st)

/-- Function `lookup_string`: a string field with a value (interning of the returned
string into the scan context's pool is elided — the string itself is
returned); a valueless string field is undefined; any other variant hits the
trailing `unreachable!()` of `lookup_string`. -/
def lookup_string (st : LookupState) : LookupResult String :=
  lift_scalar
    (fun tv => match tv with
      | .strV (some v) => .ok v
      | .strV none => .undef
      | _ => .otherPanic)
    (lookup_common st)

/-! ### The magic module (`src/lib/src/modules/magic/mod.rs`) -/

/-- The thread-local state of the magic module, plus an instrumentation
counter for calls into libmagic (`get_type`/`get_mime_type`). -/
structure MagicState where
  type_cache : Option String
  mime_type_cache : Option String
  libmagic_calls : Nat
deriving DecidableEq

/-- The read-through in `file_type`: `TYPE_CACHE.with(|_| None)` — the
closure ignores the cell's content and yields `None`. -/
def type_cache_read (_s : MagicState) : Option String := none

/-- The read-through in `mime_type`: `MIME_TYPE_CACHE.with(|_| None)`. -/
def mime_type_cache_read (_s : MagicState) : Option String := none

/-- The module's `main`: clears both caches for the newly scanned file. -/
def magic_main (s : MagicState) : MagicState :=
  { s with type_cache := none, mime_type_cache := none }

/-- The exported `type` function (`file_type`): return the cached value when
the read-through yields one; otherwise run libmagic (`get_type`, abstracted
as the function argument `get_type`, counted by `libmagic_calls`) and store
the result in the cache. -/
def file_type (get_type : List Nat → String) (data : List Nat)
    (s : MagicState) : String × MagicState :=
  match type_cache_read s with
  | some cached => (cached, s)
  | none =>
      let t := get_type data
      (t, { s with type_cache := some t,
                   libmagic_calls := s.libmagic_calls + 1 })

/-- The exported `mime_type` function, same shape as `file_type`. -/
def mime_type (get_mime_type : List Nat → String) (data : List Nat)
    (s : MagicState) : String × MagicState :=
  match mime_type_cache_read s with
  | some cached => (cached, s)
  | none =>
      let t := get_mime_type data
      (t, { s with mime_type_cache := some t,
                   libmagic_calls := s.libmagic_calls + 1 })

/-- Iterated calls: `n` successive calls to the exported `type` function on the same data. -/
def file_type_iter (get_type : List Nat → String) (data : List Nat)
    (s : MagicState) : Nat → MagicState
  | 0 => s
  | n + 1 => (file_type get_type data (file_type_iter get_type data s n)).2

/-! ## Claims -/

/-- C7: The VM memory-layout constants equal the specified byte ranges:
loop-variable slots occupy `[0, 1024)` (8 bytes per slot, 128 slots), the
field-lookup index buffer occupies `[1024, 2048)`, and the matching-rules
bitmap begins at byte offset 2048 of the module's main memory. -/
theorem C7_memory_layout_constants :
    VARS_STACK_START = 0 ∧ VARS_STACK_END = 1024 ∧
    LOOKUP_INDEXES_START = 1024 ∧ LOOKUP_INDEXES_END = 2048 ∧
    MATCHING_RULES_BITMAP_BASE = 2048 ∧
    (VARS_STACK_END - VARS_STACK_START) / 8 = 128 := by
  refine ⟨rfl, by decide, by decide, by decide, by decide, by decide⟩

/-- C4: With at most 127 loop-variable slots allocated, `new_var` succeeds
and returns a fresh slot; the allocation that would make `vars_stack_top`
exceed 128 fails hard with "too many nested loops"; 128 nested allocations
from a fresh context succeed and 129 are rejected. -/
theorem C4_var_slot_budget :
    (∀ (ctx : VarCtx) (ty : VarType), ctx.vars_stack_top ≤ 127 →
      new_var ctx ty = .ok (⟨ty, ctx.vars_stack_top⟩, ⟨ctx.vars_stack_top + 1⟩)) ∧
    (∀ (ctx : VarCtx) (ty : VarType), 128 ≤ ctx.vars_stack_top →
      new_var ctx ty = .error "too many nested loops") ∧
    (∀ (ty : VarType) (n : Nat), n ≤ 128 → allocN ty n = .ok ⟨(n : Int)⟩) ∧
    (∀ ty : VarType, allocN ty 129 = .error "too many nested loops") := by
  refine ⟨?_, ?_, fun ty n h => allocN_le ty n h, ?_⟩
  · intro ctx ty h
    simp only [new_var, VARS_STACK_END, VARS_STACK_START]
    rw [if_neg (by omega)]
  · intro ctx ty h
    simp only [new_var, VARS_STACK_END, VARS_STACK_START]
    rw [if_pos (by omega)]
  · intro ty
    have h129 : (129 : Nat) = 128 + 1 := rfl
    have h128 := allocN_le ty 128 le_rfl
    rw [h129, allocN, h128]
    simp only [new_var, VARS_STACK_END, VARS_STACK_START]
    rw [if_pos (by norm_num)]

/-- Witness for C4 at concrete inputs. -/
theorem C4_var_slot_budget_witness :
    new_var ⟨0⟩ .integer = .ok (⟨.integer, 0⟩, ⟨0 + 1⟩) ∧
    new_var ⟨128⟩ .integer = .error "too many nested loops" ∧
    allocN .integer 128 = .ok ⟨(128 : Nat)⟩ ∧
    allocN .integer 129 = .error "too many nested loops" :=
  ⟨C4_var_slot_budget.1 ⟨0⟩ .integer (by norm_num),
   C4_var_slot_budget.2.1 ⟨128⟩ .integer (by norm_num),
   C4_var_slot_budget.2.2.1 .integer 128 (by norm_num),
   C4_var_slot_budget.2.2.2 .integer⟩

/-- C6: Loop-variable slots obey a stack discipline: a successful
`new_var(ty)` returns a handle whose index is the current stack top and
increments the top by one; `free_vars(v)` resets the stack top to `v`'s
index — in particular, `free_vars` applied to the handle just returned by
`new_var` restores the previous top. -/
theorem C6_var_stack_discipline :
    (∀ (ctx : VarCtx) (ty : VarType) (v : Var) (ctx' : VarCtx),
      new_var ctx ty = .ok (v, ctx') →
      v.index = ctx.vars_stack_top ∧
      ctx'.vars_stack_top = ctx.vars_stack_top + 1 ∧
      (free_vars ctx' v).vars_stack_top = ctx.vars_stack_top) ∧
    (∀ (ctx : VarCtx) (v : Var),
      (free_vars ctx v).vars_stack_top = v.index) := by
  constructor
  · intro ctx ty v ctx' h
    simp only [new_var] at h
    by_cases hc : (ctx.vars_stack_top + 1) * 8 > VARS_STACK_END - VARS_STACK_START
    · simp only [if_pos hc] at h
      exact absurd h (by simp)
    · simp only [if_neg hc, Except.ok.injEq, Prod.mk.injEq] at h
      obtain ⟨hv, hc'⟩ := h
      subst hv
      subst hc'
      exact ⟨rfl, rfl, rfl⟩
  · intro ctx v
    rfl

/-- Witness for C6 at concrete inputs. -/
theorem C6_var_stack_discipline_witness :
    (Var.index ⟨.integer, 5⟩ = VarCtx.vars_stack_top ⟨5⟩ ∧
     VarCtx.vars_stack_top ⟨5 + 1⟩ = VarCtx.vars_stack_top ⟨5⟩ + 1 ∧
     (free_vars ⟨5 + 1⟩ ⟨.integer, 5⟩).vars_stack_top = VarCtx.vars_stack_top ⟨5⟩) ∧
    (free_vars ⟨0⟩ ⟨.bool, 3⟩).vars_stack_top = Var.index ⟨.bool, 3⟩ :=
  ⟨C6_var_stack_discipline.1 ⟨5⟩ .integer ⟨.integer, 5⟩ ⟨5 + 1⟩ (by rfl),
   C6_var_stack_discipline.2 ⟨0⟩ ⟨.bool, 3⟩⟩

/-- C8: In the magic module, every call to the exported `type` and
`mime_type` functions sees a cache read-through of `None` (the caches never
hit), so the libmagic computation runs on every call and a previously
cached value is never returned, for every sequence of calls and every
scanned input. -/
theorem C8_magic_caches_never_hit :
    ∀ (gt gm : List Nat → String) (data : List Nat) (s : MagicState),
      type_cache_read s = none ∧
      mime_type_cache_read s = none ∧
      (file_type gt data s).1 = gt data ∧
      (file_type gt data s).2.libmagic_calls = s.libmagic_calls + 1 ∧
      (mime_type gm data s).1 = gm data ∧
      (mime_type gm data s).2.libmagic_calls = s.libmagic_calls + 1 ∧
      (∀ n, (file_type_iter gt data s n).libmagic_calls =
        s.libmagic_calls + n) := by
  intro gt gm data s
  refine ⟨rfl, rfl, rfl, rfl, rfl, rfl, ?_⟩
  intro n
  induction n with
  | zero => rfl
  | succ n ih =>
      simp only [file_type_iter, file_type, type_cache_read, ih]
      omega

lemma testBit_one_shiftLeft (k m : Nat) :
    (1 <<< k).testBit m = decide (k = m) := by
  rw [Nat.one_shiftLeft]
  by_cases h : k = m
  · subst h
    simp [Nat.testBit_two_pow_self]
  · simp [Nat.testBit_two_pow_of_ne h, h]

/-- C5: For every rule id `r` and every scan-context state, `rule_match(r)`
sets bit `r` of the matching-rules bitmap (based at
`MATCHING_RULES_BITMAP_BASE`, bit `i` ↔ RuleId `i`) to 1, appends `r` to the
host's matched-rules list, and leaves every other bit of the bitmap — and
every byte outside the touched one — unchanged. -/
theorem C5_rule_match_effect :
    ∀ (ctx : ScanMem) (r : Nat),
      matchingBit (rule_match ctx r) r = true ∧
      (∀ j, j ≠ r → matchingBit (rule_match ctx r) j = matchingBit ctx j) ∧
      (rule_match ctx r).rules_matching = ctx.rules_matching ++ [r] ∧
      (∀ addr, addr ≠ MATCHING_RULES_BITMAP_BASE.toNat + r / 8 →
        (rule_match ctx r).main_memory addr = ctx.main_memory addr) := by
  intro ctx r
  refine ⟨?_, ?_, rfl, ?_⟩
  · simp [matchingBit, rule_match, Nat.testBit_or, testBit_one_shiftLeft]
  · intro j hj
    by_cases hbyte : j / 8 = r / 8
    · have hbit : j % 8 ≠ r % 8 := by omega
      simp only [matchingBit, rule_match, hbyte, if_true]
      rw [Nat.testBit_or, testBit_one_shiftLeft]
      have hd : r % 8 ≠ j % 8 := fun h => hbit h.symm
      simp [hd]
    · simp only [matchingBit, rule_match]
      rw [if_neg (by omega)]
  · intro addr haddr
    simp only [rule_match]
    rw [if_neg haddr]

/-- Witness for C5 at a concrete scan context and rule id. -/
theorem C5_rule_match_effect_witness :
    matchingBit (rule_match ⟨fun _ => 0, []⟩ 9) 9 = true ∧
    matchingBit (rule_match ⟨fun _ => 0, []⟩ 9) 3 =
      matchingBit ⟨fun _ => 0, []⟩ 3 ∧
    (rule_match ⟨fun _ => 0, []⟩ 9).rules_matching = [] ++ [9] ∧
    (rule_match ⟨fun _ => 0, []⟩ 9).main_memory 0 =
      (⟨fun _ => 0, []⟩ : ScanMem).main_memory 0 :=
  ⟨(C5_rule_match_effect ⟨fun _ => 0, []⟩ 9).1,
   (C5_rule_match_effect ⟨fun _ => 0, []⟩ 9).2.1 3 (by decide),
   (C5_rule_match_effect ⟨fun _ => 0, []⟩ 9).2.2.1,
   (C5_rule_match_effect ⟨fun _ => 0, []⟩ 9).2.2.2 0 (by decide)⟩

/-! ### The `uint*` claims -/

lemma gen_uint_fn_spec (size : Nat) (decode : List Nat → Nat)
    (d : List Nat) (o : Int) :
    (gen_uint_fn size decode d o = none ↔
      o < 0 ∨ o + (size : Int) > (d.length : Int)) ∧
    (0 ≤ o → o.toNat + size ≤ d.length →
      gen_uint_fn size decode d o =
        some (toI64 (decode ((d.drop o.toNat).take size)))) := by
  constructor
  · rw [gen_uint_fn]
    by_cases h : 0 ≤ o
    · rw [if_pos h, sliceGet]
      by_cases h2 : o.toNat + size ≤ d.length
      · rw [if_pos h2]
        exact iff_of_false (by simp) (by omega)
      · rw [if_neg h2]
        exact iff_of_true rfl (by omega)
    · rw [if_neg h]
      exact iff_of_true rfl (by omega)
  · intro h0 h2
    rw [gen_uint_fn, if_pos h0, sliceGet, if_pos h2]

lemma slice_bytes_lt (d : List Nat) (hb : ∀ b ∈ d, b < 256) (s k : Nat) :
    ∀ b ∈ (d.drop s).take k, b < 256 := fun b hbm =>
  hb b (List.drop_subset s d (List.take_subset k (d.drop s) hbm))

lemma slice_length (d : List Nat) (s k : Nat) (h : s + k ≤ d.length) :
    ((d.drop s).take k).length = k := by
  simp only [List.length_take, List.length_drop]
  omega

/-- The shape shared by the amended C2 statement for one `uint*` reader. -/
def UintSpec (size : Nat) (decode : List Nat → Nat)
    (f : List Nat → Int → Option Int) (d : List Nat) (o : Int) : Prop :=
  (f d o = none ↔ o < 0 ∨ o + (size : Int) > (d.length : Int)) ∧
  (0 ≤ o → o.toNat + size ≤ d.length →
    f d o = some (toI64 (decode ((d.drop o.toNat).take size))))

/-- C2 counterexample: on eight `0xff` bytes at offset 0, `uint64` returns
the defined pair, but its value is `-1`, not the integer decoded from the
bytes (which is `2^64 - 1`): the claim's "value is the integer decoded"
fails for `uint64`. -/
theorem C2_uint_read_counterexample :
    uint64 (List.replicate 8 255) 0 = some (-1) ∧
    leDecode (((List.replicate 8 255).drop (Int.toNat 0)).take 8) =
      2 ^ 64 - 1 ∧
    uint64 (List.replicate 8 255) 0 ≠
      some ((leDecode (((List.replicate 8 255).drop (Int.toNat 0)).take 8)
        : Nat) : Int) := by
  refine ⟨by decide, by decide, by decide⟩

/-- C2 (amended): each of `uint8/16/32/64` and the `be` variants is
undefined iff the offset is negative or the read would exceed the buffer;
otherwise the value is the decoded integer reduced into `i64` range in
two's complement (`toI64`); for the one-, two- and four-byte readers on
genuine byte data this equals the decoded integer exactly. -/
theorem C2_uint_read_amended :
    ∀ (d : List Nat) (o : Int),
      UintSpec 1 leDecode uint8 d o ∧
      UintSpec 2 leDecode uint16 d o ∧
      UintSpec 4 leDecode uint32 d o ∧
      UintSpec 8 leDecode uint64 d o ∧
      UintSpec 1 beDecode uint8be d o ∧
      UintSpec 2 beDecode uint16be d o ∧
      UintSpec 4 beDecode uint32be d o ∧
      UintSpec 8 beDecode uint64be d o ∧
      ((∀ b ∈ d, b < 256) → 0 ≤ o →
        (o.toNat + 1 ≤ d.length →
          uint8 d o = some ((leDecode ((d.drop o.toNat).take 1) : Nat) : Int) ∧
          uint8be d o = some ((beDecode ((d.drop o.toNat).take 1) : Nat) : Int)) ∧
        (o.toNat + 2 ≤ d.length →
          uint16 d o = some ((leDecode ((d.drop o.toNat).take 2) : Nat) : Int) ∧
          uint16be d o = some ((beDecode ((d.drop o.toNat).take 2) : Nat) : Int)) ∧
        (o.toNat + 4 ≤ d.length →
          uint32 d o = some ((leDecode ((d.drop o.toNat).take 4) : Nat) : Int) ∧
          uint32be d o = some ((beDecode ((d.drop o.toNat).take 4) : Nat) : Int))) := by
  intro d o
  refine ⟨gen_uint_fn_spec 1 leDecode d o, gen_uint_fn_spec 2 leDecode d o,
    gen_uint_fn_spec 4 leDecode d o, gen_uint_fn_spec 8 leDecode d o,
    gen_uint_fn_spec 1 beDecode d o, gen_uint_fn_spec 2 beDecode d o,
    gen_uint_fn_spec 4 beDecode d o, gen_uint_fn_spec 8 beDecode d o,
    ?_⟩
  intro hb h0
  have exact_le : ∀ k, k ≤ 4 → o.toNat + k ≤ d.length →
      gen_uint_fn k leDecode d o =
        some ((leDecode ((d.drop o.toNat).take k) : Nat) : Int) := by
    intro k hk h2
    rw [(gen_uint_fn_spec k leDecode d o).2 h0 h2, toI64_of_lt]
    have h1 := leDecode_lt _ (slice_bytes_lt d hb o.toNat k)
    rw [slice_length d o.toNat k h2] at h1
    calc leDecode ((d.drop o.toNat).take k) < 256 ^ k := h1
      _ ≤ 256 ^ 4 := Nat.pow_le_pow_right (by norm_num) hk
      _ < 2 ^ 63 := by norm_num
  have exact_be : ∀ k, k ≤ 4 → o.toNat + k ≤ d.length →
      gen_uint_fn k beDecode d o =
        some ((beDecode ((d.drop o.toNat).take k) : Nat) : Int) := by
    intro k hk h2
    rw [(gen_uint_fn_spec k beDecode d o).2 h0 h2, toI64_of_lt]
    have h1 := beDecode_lt _ (slice_bytes_lt d hb o.toNat k)
    rw [slice_length d o.toNat k h2] at h1
    calc beDecode ((d.drop o.toNat).take k) < 256 ^ k := h1
      _ ≤ 256 ^ 4 := Nat.pow_le_pow_right (by norm_num) hk
      _ < 2 ^ 63 := by norm_num
  exact ⟨fun h2 => ⟨exact_le 1 (by norm_num) h2, exact_be 1 (by norm_num) h2⟩,
    fun h2 => ⟨exact_le 2 (by norm_num) h2, exact_be 2 (by norm_num) h2⟩,
    fun h2 => ⟨exact_le 4 (by norm_num) h2, exact_be 4 (by norm_num) h2⟩⟩

/-- Witness for C2 (amended) at concrete inputs. -/
theorem C2_uint_read_amended_witness :
    (uint8 [5, 6, 7, 8, 9] (-1) = none ↔
      (-1 : Int) < 0 ∨ (-1 : Int) + (1 : Nat) > (([5, 6, 7, 8, 9] : List Nat).length : Int)) ∧
    uint16 [5, 6, 7, 8, 9] 1 =
      some (toI64 (leDecode ((([5, 6, 7, 8, 9] : List Nat).drop (Int.toNat 1)).take 2))) ∧
    uint32 [5, 6, 7, 8, 9] 1 =
      some ((leDecode ((([5, 6, 7, 8, 9] : List Nat).drop (Int.toNat 1)).take 4) : Nat) : Int) ∧
    uint32be [5, 6, 7, 8, 9] 1 =
      some ((beDecode ((([5, 6, 7, 8, 9] : List Nat).drop (Int.toNat 1)).take 4) : Nat) : Int) :=
  ⟨(C2_uint_read_amended [5, 6, 7, 8, 9] (-1)).1.1,
   ((C2_uint_read_amended [5, 6, 7, 8, 9] 1).2.1).2 (by norm_num) (by norm_num),
   (((C2_uint_read_amended [5, 6, 7, 8, 9] 1).2.2.2.2.2.2.2.2
      (by decide) (by norm_num)).2.2 (by norm_num)).1,
   (((C2_uint_read_amended [5, 6, 7, 8, 9] 1).2.2.2.2.2.2.2.2
      (by decide) (by norm_num)).2.2 (by norm_num)).2⟩

/-- C9: For every in-bounds non-negative offset on byte data, `uint64` and
`uint64be` return the eight read bytes decoded as an unsigned 64-bit
integer reinterpreted two's-complement as `i64`: the result is congruent to
the decoded value modulo 2^64, decoded values at or above 2^63 come out
negative, and smaller decoded values come out as themselves. -/
theorem C9_uint64_twos_complement :
    ∀ (d : List Nat) (o : Int), (∀ b ∈ d, b < 256) → 0 ≤ o →
      o.toNat + 8 ≤ d.length →
      uint64 d o = some (toI64 (leDecode ((d.drop o.toNat).take 8))) ∧
      uint64be d o = some (toI64 (beDecode ((d.drop o.toNat).take 8))) ∧
      toI64 (leDecode ((d.drop o.toNat).take 8)) % 2 ^ 64 =
        ((leDecode ((d.drop o.toNat).take 8) : Nat) : Int) % 2 ^ 64 ∧
      toI64 (beDecode ((d.drop o.toNat).take 8)) % 2 ^ 64 =
        ((beDecode ((d.drop o.toNat).take 8) : Nat) : Int) % 2 ^ 64 ∧
      (2 ^ 63 ≤ leDecode ((d.drop o.toNat).take 8) →
        toI64 (leDecode ((d.drop o.toNat).take 8)) < 0) ∧
      (2 ^ 63 ≤ beDecode ((d.drop o.toNat).take 8) →
        toI64 (beDecode ((d.drop o.toNat).take 8)) < 0) ∧
      (leDecode ((d.drop o.toNat).take 8) < 2 ^ 63 →
        toI64 (leDecode ((d.drop o.toNat).take 8)) =
          ((leDecode ((d.drop o.toNat).take 8) : Nat) : Int)) ∧
      (beDecode ((d.drop o.toNat).take 8) < 2 ^ 63 →
        toI64 (beDecode ((d.drop o.toNat).take 8)) =
          ((beDecode ((d.drop o.toNat).take 8) : Nat) : Int)) := by
  intro d o hb h0 h2
  have hlenLE := leDecode_lt _ (slice_bytes_lt d hb o.toNat 8)
  have hlenBE := beDecode_lt _ (slice_bytes_lt d hb o.toNat 8)
  rw [slice_length d o.toNat 8 h2] at hlenLE hlenBE
  have hLE64 : leDecode ((d.drop o.toNat).take 8) < 2 ^ 64 := by
    calc leDecode ((d.drop o.toNat).take 8) < 256 ^ 8 := hlenLE
      _ = 2 ^ 64 := by norm_num
  have hBE64 : beDecode ((d.drop o.toNat).take 8) < 2 ^ 64 := by
    calc beDecode ((d.drop o.toNat).take 8) < 256 ^ 8 := hlenBE
      _ = 2 ^ 64 := by norm_num
  exact ⟨(gen_uint_fn_spec 8 leDecode d o).2 h0 h2,
    (gen_uint_fn_spec 8 beDecode d o).2 h0 h2,
    toI64_emod _, toI64_emod _,
    fun hge => toI64_neg_of_ge hge hLE64,
    fun hge => toI64_neg_of_ge hge hBE64,
    fun hlt => toI64_of_lt hlt,
    fun hlt => toI64_of_lt hlt⟩

/-- Witness for C9: on eight `0xff` bytes the decoded value is at least
2^63 and `uint64` reports it as a negative `i64`. -/
theorem C9_uint64_twos_complement_witness :
    uint64 (List.replicate 8 255) 0 =
      some (toI64 (leDecode (((List.replicate 8 255).drop (Int.toNat 0)).take 8))) ∧
    toI64 (leDecode (((List.replicate 8 255).drop (Int.toNat 0)).take 8)) < 0 :=
  ⟨(C9_uint64_twos_complement (List.replicate 8 255) 0
      (by decide) (by norm_num) (by decide)).1,
   (C9_uint64_twos_complement (List.replicate 8 255) 0
      (by decide) (by norm_num) (by decide)).2.2.2.2.1 (by decide)⟩

/-! ### The lookup-path claim -/

lemma lookup_start_struct_cases (st : LookupState) :
    (∃ s, lookup_start_struct st = .ok s) ∨
      lookup_start_struct st = .otherPanic := by
  unfold lookup_start_struct
  cases hcs : st.current_struct with
  | some s => exact .inl ⟨s, rfl⟩
  | none =>
      simp only
      by_cases h : st.lookup_start ≠ -1
      · rw [if_pos h]
        cases hv : st.vars_stack.get? (usizeOf st.lookup_start) with
        | none => exact .inr rfl
        | some v =>
            cases v with
            | structV s => exact .inl ⟨s, rfl⟩
            | unknown => exact .inr rfl
            | boolV o => exact .inr rfl
            | intV o => exact .inr rfl
            | floatV o => exact .inr rfl
            | strV o => exact .inr rfl
            | arr => exact .inr rfl
            | mp => exact .inr rfl
            | fnc => exact .inr rfl
      · rw [if_neg h]
        exact .inl ⟨_, rfl⟩

lemma lookup_common_unreachable_iff (st : LookupState) :
    lookup_common st = .unreachableHit ↔
      st.lookup_stack.length = 0 ∧ st.lookup_start = -1 := by
  rw [lookup_common]
  by_cases h1 : st.lookup_stack.length > 0
  · rw [if_pos h1]
    refine iff_of_false ?_ (by omega)
    rcases lookup_start_struct_cases st with ⟨s, hs⟩ | hs <;> rw [hs]
    · cases hw : walk_fields s st.lookup_stack none <;> simp [hw]
    · simp
  · rw [if_neg h1]
    by_cases h2 : st.lookup_start ≠ -1
    · rw [if_pos h2]
      refine iff_of_false ?_ (fun hc => h2 hc.2)
      cases hv : st.vars_stack.get? (usizeOf st.lookup_start) <;> simp [hv]
    · rw [if_neg h2]
      push_neg at h2
      exact iff_of_true rfl ⟨by omega, h2⟩

lemma lift_scalar_unreachable {α : Type} (code : TypeValue → LookupResult α)
    (hc : ∀ v, code v ≠ .unreachableHit) (r : LookupResult TypeValue) :
    lift_scalar code r = .unreachableHit ↔ r = .unreachableHit := by
  cases r with
  | ok v => simpa [lift_scalar] using hc v
  | undef => simp [lift_scalar]
  | unreachableHit => simp [lift_scalar]
  | otherPanic => simp [lift_scalar]

lemma scalar_codes_no_unreachable :
    (∀ tv : TypeValue, (match tv with
      | .intV (some v) => LookupResult.ok v
      | _ => .undef) ≠ LookupResult.unreachableHit) ∧
    (∀ tv : TypeValue, (match tv with
      | .floatV (some v) => LookupResult.ok v
      | _ => .undef) ≠ LookupResult.unreachableHit) ∧
    (∀ tv : TypeValue, (match tv with
      | .boolV (some v) => LookupResult.ok v
      | _ => .undef) ≠ LookupResult.unreachableHit) ∧
    (∀ tv : TypeValue, (match tv with
      | .strV (some v) => LookupResult.ok v
      | .strV none => .undef
      | _ => .otherPanic) ≠ LookupResult.unreachableHit) := by
  refine ⟨fun tv => ?_, fun tv => ?_, fun tv => ?_, fun tv => ?_⟩ <;>
    · intro h
      split at h <;> simp_all

/-- C10: Each scalar lookup primitive (`lookup_integer`, `lookup_float`,
`lookup_bool`, `lookup_string`) has the unstated precondition that the
lookup-index count is at least 1 or `lookup_start` is not `-1`; under it
the bare-`unreachable!()` branch of the shared lookup path is never taken,
and a call with an empty lookup stack, `lookup_start = -1` and no current
struct reaches it (panics). -/
theorem C10_lookup_unreachable_precondition :
    ∀ st : LookupState,
      (1 ≤ st.lookup_stack.length ∨ st.lookup_start ≠ -1 →
        lookup_integer st ≠ .unreachableHit ∧
        lookup_float st ≠ .unreachableHit ∧
        lookup_bool st ≠ .unreachableHit ∧
        lookup_string st ≠ .unreachableHit) ∧
      (st.lookup_stack = [] → st.lookup_start = -1 →
        st.current_struct = none →
        lookup_integer st = .unreachableHit ∧
        lookup_float st = .unreachableHit ∧
        lookup_bool st = .unreachableHit ∧
        lookup_string st = .unreachableHit) := by
  intro st
  obtain ⟨hci, hcf, hcb, hcs⟩ := scalar_codes_no_unreachable
  constructor
  · intro hpre
    have hne : lookup_common st ≠ .unreachableHit := by
      intro hc
      rw [lookup_common_unreachable_iff] at hc
      obtain ⟨hl, hs⟩ := hc
      rcases hpre with h | h
      · omega
      · exact h hs
    exact ⟨fun h => hne ((lift_scalar_unreachable _ hci _).mp h),
      fun h => hne ((lift_scalar_unreachable _ hcf _).mp h),
      fun h => hne ((lift_scalar_unreachable _ hcb _).mp h),
      fun h => hne ((lift_scalar_unreachable _ hcs _).mp h)⟩
  · intro hl hs _
    have hcommon : lookup_common st = .unreachableHit := by
      rw [lookup_common_unreachable_iff]
      exact ⟨by rw [hl]; rfl, hs⟩
    refine ⟨?_, ?_, ?_, ?_⟩ <;>
      simp [lookup_integer, lookup_float, lookup_bool, lookup_string,
        hcommon, lift_scalar]

/-- Witness for C10 at concrete scan states. -/
theorem C10_lookup_unreachable_precondition_witness :
    (lookup_integer ⟨0, [], none, [.intV (some 7)], []⟩ ≠ .unreachableHit) ∧
    (lookup_integer ⟨-1, [], none, [], []⟩ = .unreachableHit ∧
     lookup_string ⟨-1, [], none, [], []⟩ = .unreachableHit) :=
  ⟨((C10_lookup_unreachable_precondition
      ⟨0, [], none, [.intV (some 7)], []⟩).1 (by norm_num)).1,
   ((C10_lookup_unreachable_precondition ⟨-1, [], none, [], []⟩).2
      rfl rfl rfl).1,
   ((C10_lookup_unreachable_precondition ⟨-1, [], none, [], []⟩).2
      rfl rfl rfl).2.2.2⟩

/-! ### The rule/pattern id-assignment claim -/

lemma intern_patterns_spec (ps : List String) :
    ∀ (pool : List String) (pats : List CPattern),
      (intern_patterns ps pool pats).2.2.length = pats.length + ps.length ∧
      (intern_patterns ps pool pats).1.map Prod.snd =
        List.range' pats.length ps.length := by
  induction ps with
  | nil => intro pool pats; simp [intern_patterns]
  | cons p ps ih =>
      intro pool pats
      obtain ⟨ih1, ih2⟩ := ih (get_or_intern pool p).2 (pats ++ [⟨⟩])
      simp only [intern_patterns, List.map_cons]
      rw [List.length_append] at ih1 ih2
      constructor
      · rw [ih1]
        simp only [List.length_cons, List.length_nil]
        omega
      · simp [ih2, List.range'_succ]

lemma process_rule_fst (st : CompilerState) (syms : List (String × SymKind))
    (r : RuleDecl) : (process_rule st syms r).1 = st.rules.length := rfl

lemma process_rule_ok (st : CompilerState) (syms : List (String × SymKind))
    (r : RuleDecl) (st' : CompilerState) (syms' : List (String × SymKind))
    (h : (process_rule st syms r).2 = .ok (st', syms')) :
    st'.rules.length = st.rules.length + 1 ∧
    st'.patterns.length = st.patterns.length + r.patternCount ∧
    pattern_ids st' =
      pattern_ids st ++ List.range' st.patterns.length r.patternCount := by
  rw [process_rule] at h
  by_cases hc : r.cond_ok
  · rw [if_pos hc] at h
    injection h with h
    injection h with h1 h2
    subst h1
    cases hps : r.patternDecls with
    | some ps =>
        obtain ⟨hlen, hmap⟩ := intern_patterns_spec ps st.ident_pool st.patterns
        refine ⟨by simp [hps], by simp [hps, hlen, RuleDecl.patternCount], ?_⟩
        simp only [pattern_ids, hps, List.map_append, List.flatten_append,
          List.map_cons, List.map_nil, RuleDecl.patternCount]
        rw [hmap]
        simp
    | none =>
        refine ⟨by simp [hps], by simp [hps, RuleDecl.patternCount], ?_⟩
        simp [pattern_ids, hps, RuleDecl.patternCount]
  · rw [if_neg hc] at h
    exact absurd h (by simp)

lemma process_rules_spec (rs : List RuleDecl) :
    ∀ (st : CompilerState) (syms : List (String × SymKind))
      (ids : List Nat) (st'' : CompilerState),
      process_rules st syms rs = .ok (ids, st'') →
      ids = List.range' st.rules.length rs.length ∧
      st''.rules.length = st.rules.length + rs.length ∧
      (pattern_ids st = List.range' 0 st.patterns.length →
        pattern_ids st'' = List.range' 0 st''.patterns.length) := by
  induction rs with
  | nil =>
      intro st syms ids st'' h
      rw [process_rules] at h
      injection h with h
      injection h with h1 h2
      subst h1; subst h2
      exact ⟨rfl, rfl, fun hp => hp⟩
  | cons r rs ih =>
      intro st syms ids st'' h
      rw [process_rules] at h
      split at h
      · exact absurd h (by simp)
      · rename_i st' syms' hpr
        split at h
        · exact absurd h (by simp)
        · rename_i ids' st2 hrec
          injection h with h
          injection h with h1 h2
          subst h1; subst h2
          obtain ⟨hlen1, hplen, hpids⟩ := process_rule_ok st syms r st' syms' hpr
          obtain ⟨hids', hlen2, hinv⟩ := ih st' syms' ids' st2 hrec
          simp only [List.length_cons]
          refine ⟨?_, by omega, ?_⟩
          · rw [hids', process_rule_fst, hlen1, List.range'_succ]
          · intro hp
            apply hinv
            rw [hpids, hp, hplen]
            have := List.range'_append 0 st.patterns.length r.patternCount 1
            simp only [one_mul, zero_add] at this
            rw [this, Nat.add_comm r.patternCount st.patterns.length]

lemma process_imports_preserves (known : String → Bool)
    (imports : List String) :
    ∀ (st : CompilerState) (syms : List (String × SymKind))
      (st' : CompilerState) (syms' : List (String × SymKind)),
      process_imports known st syms imports = .ok (st', syms') →
      st'.rules = st.rules ∧ st'.patterns = st.patterns ∧
      st'.warnings = st.warnings := by
  induction imports with
  | nil =>
      intro st syms st' syms' h
      rw [process_imports] at h
      injection h with h
      injection h with h1 h2
      subst h1
      exact ⟨rfl, rfl, rfl⟩
  | cons name rest ih =>
      intro st syms st' syms' h
      rw [process_imports] at h
      by_cases hk : known name
      · rw [if_pos hk] at h
        obtain ⟨h1, h2, h3⟩ := ih _ _ _ _ h
        exact ⟨h1, h2, h3⟩
      · rw [if_neg hk] at h
        exact absurd h (by simp)

lemma process_namespace_spec (known : String → Bool) (ns : NamespaceDecl) :
    ∀ (st : CompilerState) (ids : List Nat) (st' : CompilerState),
      process_namespace known st ns = .ok (ids, st') →
      ids = List.range' st.rules.length ns.rules.length ∧
      st'.rules.length = st.rules.length + ns.rules.length ∧
      (pattern_ids st = List.range' 0 st.patterns.length →
        pattern_ids st' = List.range' 0 st'.patterns.length) := by
  intro st ids st' h
  rw [process_namespace] at h
  split at h
  · exact absurd h (by simp)
  · rename_i st2 syms2 him
    obtain ⟨hr, hp, _⟩ := process_imports_preserves known ns.imports st [] st2 syms2 him
    obtain ⟨hids, hlen, hinv⟩ := process_rules_spec ns.rules st2 syms2 ids st' h
    rw [hr] at hids hlen
    refine ⟨hids, hlen, fun hpat => hinv ?_⟩
    have hpid : pattern_ids st2 = pattern_ids st := by
      simp only [pattern_ids, hr]
    rw [hpid, hp]
    exact hpat

lemma add_source_loop_spec (known : String → Bool) (nss : List NamespaceDecl) :
    ∀ (st : CompilerState) (ids : List Nat) (st' : CompilerState),
      add_source_loop known st nss = .ok (ids, st') →
      ids = List.range' st.rules.length (rule_count nss) ∧
      st'.rules.length = st.rules.length + rule_count nss ∧
      (pattern_ids st = List.range' 0 st.patterns.length →
        pattern_ids st' = List.range' 0 st'.patterns.length) := by
  induction nss with
  | nil =>
      intro st ids st' h
      rw [add_source_loop] at h
      injection h with h
      injection h with h1 h2
      subst h1; subst h2
      exact ⟨by simp [rule_count], by simp [rule_count], fun hp => hp⟩
  | cons ns rest ih =>
      intro st ids st' h
      rw [add_source_loop] at h
      split at h
      · exact absurd h (by simp)
      · rename_i ids1 st1 hns
        split at h
        · exact absurd h (by simp)
        · rename_i ids2 st2 hrest
          injection h with h
          injection h with h1 h2
          subst h1; subst h2
          obtain ⟨hids1, hlen1, hinv1⟩ := process_namespace_spec known ns st ids1 st1 hns
          obtain ⟨hids2, hlen2, hinv2⟩ := ih st1 ids2 st2 hrest
          have hcount : rule_count (ns :: rest) =
              ns.rules.length + rule_count rest := by
            simp [rule_count]
          refine ⟨?_, by omega, fun hp => hinv2 (hinv1 hp)⟩
          rw [hids1, hids2, hlen1, hcount]
          have := List.range'_append st.rules.length ns.rules.length
            (rule_count rest) 1
          simp only [one_mul] at this
          rw [Nat.add_comm ns.rules.length (rule_count rest), ← this]

/-- C1: `process_rule` assigns each rule the `RuleId` equal to the number of
rules compiled so far (its index in the rules vector), and each `PatternId`
is the pattern's index in the patterns vector; hence compiling a source with
`k` rule declarations yields an artifact whose `rules()` slice has length
`k`, with `RuleId`s contiguous `0..k-1` in declaration order (source order
within a namespace, namespaces in declaration order). -/
theorem C1_rule_and_pattern_id_assignment :
    (∀ (st : CompilerState) (syms : List (String × SymKind)) (r : RuleDecl),
      (process_rule st syms r).1 = st.rules.length) ∧
    (∀ (known : String → Bool) (nss : List NamespaceDecl)
        (ids : List Nat) (st' : CompilerState),
      add_source known nss = .ok (ids, st') →
      (build st').rules.length = rule_count nss ∧
      ids = List.range (rule_count nss) ∧
      pattern_ids st' = List.range st'.patterns.length) := by
  refine ⟨fun st syms r => process_rule_fst st syms r, ?_⟩
  intro known nss ids st' h
  obtain ⟨hids, hlen, hinv⟩ :=
    add_source_loop_spec known nss compiler_new ids st' h
  have hstart : pattern_ids compiler_new =
      List.range' 0 (compiler_new.patterns.length) := by
    simp [pattern_ids, compiler_new]
  refine ⟨?_, ?_, ?_⟩
  · show st'.rules.length = rule_count nss
    rw [hlen]
    simp [compiler_new]
  · rw [hids, List.range_eq_range']
    simp [compiler_new]
  · rw [List.range_eq_range']
    exact hinv hstart

/-- The compiler state produced by the C1 witness source. -/
def c1WitnessState : CompilerState :=
  { ident_pool := ["$a", "$b", "r1", "r2"]
    rules := [{ ident := 2, patterns := [(0, 0), (1, 1)] },
              { ident := 3, patterns := [] }]
    patterns := [⟨⟩, ⟨⟩]
    imported_modules := []
    modules_struct := []
    warnings := [] }

/-- Witness for C1: a source with one namespace and two rules, the first
with two patterns. -/
theorem C1_rule_and_pattern_id_assignment_witness :
    (process_rule compiler_new [] ⟨"r1", some ["$a", "$b"], true⟩).1 =
      compiler_new.rules.length ∧
    (build c1WitnessState).rules.length =
      rule_count [⟨[], [⟨"r1", some ["$a", "$b"], true⟩, ⟨"r2", none, true⟩]⟩] ∧
    [0, 1] = List.range
      (rule_count [⟨[], [⟨"r1", some ["$a", "$b"], true⟩, ⟨"r2", none, true⟩]⟩]) ∧
    pattern_ids c1WitnessState = List.range c1WitnessState.patterns.length :=
  ⟨C1_rule_and_pattern_id_assignment.1 compiler_new []
     ⟨"r1", some ["$a", "$b"], true⟩,
   C1_rule_and_pattern_id_assignment.2 (fun _ => true)
     [⟨[], [⟨"r1", some ["$a", "$b"], true⟩, ⟨"r2", none, true⟩]⟩]
     [0, 1] c1WitnessState (by rfl)⟩

/-! ### The duplicate-import claim

The spec (and the comment over the `process_imports` call site in
`Compiler::add_source`) says duplicated imports raise a warning and the
second import is ignored.  The body of `process_imports` contains no
duplicate check: it never touches `warnings`, and a second import of the
same known module pushes its `IdentId` onto `imported_modules` again, so
the resulting state is not the state of a single import. -/

/-- C3 (refuting the claim on the code): `process_imports` never emits any
warning, and importing the module "magic" twice in one namespace succeeds
with `imported_modules = [id, id]` — not the single-import state and with
no `DuplicateImport` warning, contradicting the claim. -/
theorem C3_duplicate_import_not_ignored :
    (∀ (known : String → Bool) (imports : List String)
        (st : CompilerState) (syms : List (String × SymKind))
        (st' : CompilerState) (syms' : List (String × SymKind)),
      process_imports known st syms imports = .ok (st', syms') →
      st'.warnings = st.warnings) ∧
    process_imports (fun s => s == "magic") compiler_new [] ["magic", "magic"]
      = .ok ({ compiler_new with
                 ident_pool := ["magic"],
                 imported_modules := [0, 0],
                 modules_struct := ["magic", "magic"] },
             [("magic", .fieldIndex 0)]) ∧
    process_imports (fun s => s == "magic") compiler_new [] ["magic"]
      = .ok ({ compiler_new with
                 ident_pool := ["magic"],
                 imported_modules := [0],
                 modules_struct := ["magic"] },
             [("magic", .fieldIndex 0)]) ∧
    ([0, 0] : List Nat) ≠ [0] := by
  refine ⟨?_, by rfl, by rfl, by decide⟩
  intro known imports st syms st' syms' h
  exact (process_imports_preserves known imports st syms st' syms' h).2.2

/-- Witness for C3's universally quantified part at a concrete input. -/
theorem C3_duplicate_import_not_ignored_witness :
    ({ compiler_new with
         ident_pool := ["magic"],
         imported_modules := [0, 0],
         modules_struct := ["magic", "magic"] } : CompilerState).warnings =
      compiler_new.warnings :=
  C3_duplicate_import_not_ignored.1 (fun s => s == "magic")
    ["magic", "magic"] compiler_new [] _ _ (by rfl)

end YaraX
